import Mathlib

/-!
Shallow embedding of the core of the `sale_subscription_asset` Tryton module
(`sale.py`): the temporal exclusivity validator `_validate_dates` on
subscription lines and the recurrence scheduler `compute_next_consumption_date`.

Dates are modelled as integers (a total order with a discrete successor is all
the code uses).  `end_date = none` is an open-ended (unbounded) interval end,
mirroring SQL `NULL`.
-/

namespace SaleSubscriptionAsset

/-- A calendar date, modelled as days on an integer time line. -/
abbrev Date := Int

/--
A `sale.subscription.line` record, restricted to the fields read by
`_validate_dates` and `compute_next_consumption_date`.

* `consumption_recurrence` models `self.consumption_recurrence` together with
  the derived `rruleset(self.start_date)`: `some occs` is the (sorted) sequence
  of occurrence dates the rule set generates, `none` means no recurrence rule
  is configured (`not self.consumption_recurrence`).  The rule set is anchored
  at `start_date` and generates midnight datetimes, so occurrences are plain
  dates and `.date()` on an occurrence is the identity.
* `subscription_end_date` is `self.subscription.end_date`.
-/
structure Line where
  id : Nat
  asset_lot : Option Nat
  start_date : Date
  end_date : Option Date
  consumption_recurrence : Option (List Date)
  next_consumption_date : Option Date
  subscription_end_date : Option Date
  deriving DecidableEq, Repr

/-! ## Recurrence scheduler -/

/--
The dateutil operation `rruleset.after(dt, inc)`: the first occurrence strictly after `dt`
(at-or-after when `inc` is true), or `None` when the series has no such
occurrence.  The rule set generates its occurrences in ascending order, which
is `List.Pairwise (· ≤ ·)` on the modelled occurrence list.
-/
def rruleset_after (occs : List Date) (dt : Date) (inc : Bool) : Option Date :=
  occs.find? (fun d => if inc then decide (dt ≤ d) else decide (dt < d))

/-- The error raised by `rruleset.after(dt, inc=inc).date()` when `after`
returns `None`: `AttributeError` -- NoneType has no attribute `date`. -/
inductive PyError where
  | attributeError
  deriving DecidableEq, Repr

/--
One iteration of the clamp loop body (sale.py:180-183): `if end_date: if
next_date > end_date: return None` — a truthy (non-null) bound is exceeded
when the computed date is strictly past it. -/
def date_exceeds (next_date : Date) (end_date : Option Date) : Bool :=
  match end_date with
  | some e => decide (next_date > e)
  | none => false

/--
Source method `SubscriptionLine.compute_next_consumption_date` (sale.py:172-184):

```
if not self.consumption_recurrence:
    return None
date = self.next_consumption_date or self.start_date
rruleset = self.consumption_recurrence.rruleset(self.start_date)
dt = datetime.datetime.combine(date, datetime.time())
inc = (self.start_date == date) and not self.next_consumption_date
next_date = rruleset.after(dt, inc=inc).date()
for end_date in [self.end_date, self.subscription.end_date]:
    if end_date:
        if next_date > end_date:
            return None
return next_date
```
-/
def compute_next_consumption_date (l : Line) : Except PyError (Option Date) :=
  match l.consumption_recurrence with
  | none => .ok none
  | some occs =>
    let date := l.next_consumption_date.getD l.start_date
    let inc := decide (l.start_date = date) && l.next_consumption_date.isNone
    match rruleset_after occs date inc with
    | none => .error .attributeError
    | some next_date =>
      if date_exceeds next_date l.end_date then .ok none
      else if date_exceeds next_date l.subscription_end_date then .ok none
      else .ok (some next_date)

/-! ## Temporal exclusivity validator -/

/--
SQL equality `line.asset_lot == other.asset_lot` under three-valued logic:
`NULL = x` is `NULL`, which a join condition treats as false, so the
comparison holds exactly when both lots are non-null and equal.
-/
def lot_eq (a b : Option Nat) : Bool :=
  match a, b with
  | some x, some y => x == y
  | _, _ => false

/--
The `overlap_where` SQL clause of `_validate_dates` (sale.py:216-228), with
`line` the batch line and `other` the candidate other line.  A comparison
against a `NULL` `end_date` yields SQL `NULL`, falsy under `WHERE`; each
null case is guarded explicitly, exactly as in the source.
-/
def overlap_where (line other : Line) : Bool :=
  (line.end_date.isNone
    && (other.end_date.isNone
      || decide (other.start_date > line.start_date)
      || (match other.end_date with
          | some e2 => decide (e2 > line.start_date)
          | none => false)))
  || (!line.end_date.isNone
    && ((other.end_date.isNone
        && (match line.end_date with
            | some e1 => decide (other.start_date < e1)
            | none => false))
      || (!other.end_date.isNone
        && (match line.end_date, other.end_date with
            | some e1, some e2 =>
              (decide (e2 ≥ line.start_date) && decide (e2 < e1))
              || (decide (other.start_date ≥ line.start_date)
                && decide (other.start_date < e1))
            | _, _ => false))))

/-- The join condition `line.id != other.id & line.asset_lot == other.asset_lot`
(sale.py:232-233). -/
def join_condition (line other : Line) : Bool :=
  (line.id != other.id) && lot_eq line.asset_lot other.asset_lot

/--
One chunked query of `_validate_dates` (sale.py:231-239): over the joined
table, select the first pair `(line.id, other.id)` with `line.asset_lot`
non-null, `line.id` among `sub_ids`, and the intervals overlapping per
`overlap_where` (`limit=1` + `fetchone`).  The row order of the scan is fixed
to table order (SQL leaves it unspecified).
-/
def find_overlapping (table : List Line) (sub_ids : List Nat) :
    Option (Nat × Nat) :=
  table.findSome? fun line =>
    if line.asset_lot.isSome && sub_ids.contains line.id then
      (table.find? fun other =>
        join_condition line other && overlap_where line other).map
        fun other => (line.id, other.id)
    else
      none

/-- Recursion core of `grouped_slice`; the fuel argument only bounds the
recursion depth (one chunk consumes at least one id, so `ids.length` fuel is
always enough). -/
def grouped_slice_go (count : Nat) : Nat → List Nat → List (List Nat)
  | 0, _ => []
  | _, [] => []
  | fuel + 1, x :: xs => (x :: xs.take count) :: grouped_slice_go count fuel (xs.drop count)

/--
Source helper `trytond.tools.grouped_slice` with chunk size `count + 1`: split the id list
into consecutive chunks (`+ 1` keeps the chunk size positive, as in the source
where the count defaults to the database `IN_MAX`).
-/
def grouped_slice (count : Nat) (ids : List Nat) : List (List Nat) :=
  grouped_slice_go count ids.length ids

/--
The validation error `asset_overlapping_dates` (sale.py:242-245): carries the
identities of the two offending lines (the source renders their `rec_name`s
from exactly these two ids via `cls.browse`).
-/
structure OverlapError where
  line1 : Nat
  line2 : Nat
  deriving DecidableEq, Repr

/-- The per-chunk loop of `_validate_dates` (sale.py:229-245): run the query
for each chunk; on the first chunk whose query returns a row, raise
`asset_overlapping_dates` for that pair and stop. -/
def run_chunks (table : List Line) : List (List Nat) → Except OverlapError Unit
  | [] => .ok ()
  | c :: cs =>
    match find_overlapping table c with
    | some (i, j) => .error ⟨i, j⟩
    | none => run_chunks table cs

/--
Source classmethod `SubscriptionLine._validate_dates` (sale.py:207-245): validate the batch of
line ids `batch` against the whole line `table`, chunking the batch by
`grouped_slice`.  The table lock (sale.py:212) serialises validations and has
no effect on the sequential result modelled here.
-/
def _validate_dates (count : Nat) (batch : List Nat) (table : List Line) :
    Except OverlapError Unit :=
  run_chunks table (grouped_slice count batch)

/--
The spec's overlap predicate, stated for comparison with the source's
`overlap_where`: half-open intervals `[start_date, end_date)` with a null
`end_date` read as `+infinity` overlap iff
`s1 < e2 (or e2 unbounded)` and `s2 < e1 (or e1 unbounded)`.
-/
def spec_overlap (line other : Line) : Bool :=
  (match other.end_date with
   | none => true
   | some e2 => decide (line.start_date < e2))
  && (match line.end_date with
      | none => true
      | some e1 => decide (other.start_date < e1))

/-! ## Helper lemmas -/

/-- With enough fuel, `grouped_slice_go` does not depend on the exact fuel. -/
theorem grouped_slice_go_fuel (count : Nat) :
    ∀ fuel₁ fuel₂ ids, ids.length ≤ fuel₁ → ids.length ≤ fuel₂ →
      grouped_slice_go count fuel₁ ids = grouped_slice_go count fuel₂ ids := by
  intro fuel₁
  induction fuel₁ with
  | zero =>
    intro fuel₂ ids h₁ _
    have : ids = [] := List.eq_nil_of_length_eq_zero (Nat.le_zero.mp h₁)
    subst this
    cases fuel₂ <;> rfl
  | succ f ih =>
    intro fuel₂ ids h₁ h₂
    cases ids with
    | nil => cases fuel₂ <;> rfl
    | cons x xs =>
      cases fuel₂ with
      | zero => simp at h₂
      | succ f₂ =>
        simp only [grouped_slice_go, List.cons.injEq, true_and]
        have hdrop : (xs.drop count).length ≤ xs.length := by
          simp only [List.length_drop]
          omega
        have hx1 : xs.length ≤ f := by
          simp only [List.length_cons] at h₁
          omega
        have hx2 : xs.length ≤ f₂ := by
          simp only [List.length_cons] at h₂
          omega
        exact ih f₂ (xs.drop count) (le_trans hdrop hx1) (le_trans hdrop hx2)

/-- Unfolding a non-empty batch: the first chunk is the first `count + 1` ids. -/
theorem grouped_slice_cons (count : Nat) (x : Nat) (xs : List Nat) :
    grouped_slice count (x :: xs) =
      (x :: xs).take (count + 1) :: grouped_slice count (xs.drop count) := by
  simp only [grouped_slice, List.length_cons, grouped_slice_go, List.take_succ_cons,
    List.cons.injEq, true_and]
  exact grouped_slice_go_fuel count xs.length (xs.drop count).length (xs.drop count)
    (by simp only [List.length_drop]; omega) le_rfl

/-- A singleton batch forms a single chunk. -/
theorem grouped_slice_singleton (count : Nat) (x : Nat) :
    grouped_slice count [x] = [[x]] := by
  simp [grouped_slice, grouped_slice_go]

/-- If no chunk's query finds an overlapping pair, the loop passes silently. -/
theorem run_chunks_ok (table : List Line) :
    ∀ cs : List (List Nat), (∀ c ∈ cs, find_overlapping table c = none) →
      run_chunks table cs = .ok () := by
  intro cs
  induction cs with
  | nil => intro _; rfl
  | cons c cs ih =>
    intro h
    have hc : find_overlapping table c = none := h c (List.mem_cons_self c cs)
    simp only [run_chunks, hc]
    exact ih fun d hd => h d (List.mem_cons_of_mem c hd)

/-- In a sorted occurrence list, the first occurrence at-or-after a member is
that member itself. -/
theorem find?_le_of_mem_sorted (x : Date) :
    ∀ occs : List Date, occs.Pairwise (· ≤ ·) → x ∈ occs →
      occs.find? (fun d => decide (x ≤ d)) = some x := by
  intro occs
  induction occs with
  | nil => intro _ h; simp at h
  | cons y ys ih =>
    intro hs hm
    by_cases hxy : x ≤ y
    · have hyx : y ≤ x := by
        rcases List.mem_cons.mp hm with h | h
        · exact le_of_eq h.symm
        · exact (List.pairwise_cons.mp hs).1 x h
      have : y = x := le_antisymm hyx hxy
      subst this
      simp [List.find?]
    · have hx : x ∈ ys := by
        rcases List.mem_cons.mp hm with h | h
        · exact absurd (le_of_eq h) hxy
        · exact h
      have : (decide (x ≤ y)) = false := by simpa using hxy
      simp only [List.find?, this]
      exact ih (List.pairwise_cons.mp hs).2 hx

/-- When a previous consumption date exists, the scheduler queries the rule
set strictly after it, so any date it returns is strictly later. -/
theorem next_after_prev (l : Line) (a d : Date)
    (hprev : l.next_consumption_date = some a)
    (hok : compute_next_consumption_date l = .ok (some d)) : a < d := by
  unfold compute_next_consumption_date at hok
  cases hr : l.consumption_recurrence with
  | none => rw [hr] at hok; exact absurd hok (by simp)
  | some occs =>
    rw [hr, hprev] at hok
    simp only [Option.getD_some, Option.isNone_some, Bool.and_false] at hok
    cases hafter : rruleset_after occs a false with
    | none => rw [hafter] at hok; exact absurd hok (by simp)
    | some nd =>
      rw [hafter] at hok
      have hlt : a < nd := by
        have := List.find?_some hafter
        simpa using this
      have : nd = d := by
        cases h1 : date_exceeds nd l.end_date with
        | true => simp [h1] at hok
        | false =>
          cases h2 : date_exceeds nd l.subscription_end_date with
          | true => simp [h1, h2] at hok
          | false =>
            simp [h1, h2] at hok
            exact hok
      exact this ▸ hlt

/-! ## Claims -/

/-- C10: validating an empty batch always succeeds — `_validate_dates` with an
empty list of line ids reports no conflict, whatever the table holds. -/
theorem c10_empty_batch_ok (count : Nat) (table : List Line) :
    _validate_dates count [] table = .ok () := rfl

/-- C1: the spec requires a conflict whenever two distinct lines on the same
non-null asset lot have overlapping half-open intervals, in particular when
the other line's bounded interval strictly contains the batch line's.  The
source's `overlap_where` misses exactly that containment case: for batch line
`[5, 10)` (id 1) and other line `[0, 20)` (id 2) on the same lot, the spec's
overlap predicate holds, yet the query clause is false and `_validate_dates`
passes silently. -/
theorem c1_containment_missed :
    spec_overlap ⟨1, some 7, 5, some 10, none, none, none⟩
        ⟨2, some 7, 0, some 20, none, none, none⟩ = true
    ∧ overlap_where ⟨1, some 7, 5, some 10, none, none, none⟩
        ⟨2, some 7, 0, some 20, none, none, none⟩ = false
    ∧ _validate_dates 10 [1]
        [⟨1, some 7, 5, some 10, none, none, none⟩,
         ⟨2, some 7, 0, some 20, none, none, none⟩] = .ok () :=
  ⟨rfl, rfl, rfl⟩

/-- C3: on a terminated recurrence series (no occurrence after the anchor,
here occurrences `[0, 30]` with the anchor at the already-consumed `30`),
`rruleset.after` returns `None` and the source's `.date()` call raises
`AttributeError` instead of returning the exhausted value `None`; a date-bound
clamp on the same rule (line `end_date = 50`, next occurrence `60`) does
return `None` normally. -/
theorem c3_terminated_series_raises :
    compute_next_consumption_date ⟨1, none, 0, none, some [0, 30], some 30, none⟩
      = .error .attributeError
    ∧ compute_next_consumption_date
        ⟨1, none, 0, some 50, some [0, 30, 60], some 30, none⟩ = .ok none :=
  ⟨rfl, rfl⟩

/-- C4: a non-null scheduled date never exceeds the line's own `end_date` nor
the subscription's `end_date`; and if the computed occurrence exceeds either
bound alone the result is the exhausted value `None`. -/
theorem c4_result_within_bounds (l : Line) :
    (∀ d : Date, compute_next_consumption_date l = .ok (some d) →
      (∀ e, l.end_date = some e → d ≤ e)
      ∧ (∀ e, l.subscription_end_date = some e → d ≤ e))
    ∧ (∀ (occs : List Date) (nd : Date),
        l.consumption_recurrence = some occs →
        rruleset_after occs (l.next_consumption_date.getD l.start_date)
          (decide (l.start_date = l.next_consumption_date.getD l.start_date)
            && l.next_consumption_date.isNone) = some nd →
        (date_exceeds nd l.end_date = true
          ∨ date_exceeds nd l.subscription_end_date = true) →
        compute_next_consumption_date l = .ok none) := by
  constructor
  · intro d hok
    simp only [compute_next_consumption_date] at hok
    cases hr : l.consumption_recurrence with
    | none => rw [hr] at hok; exact absurd hok (by simp)
    | some occs =>
      rw [hr] at hok
      simp only [] at hok
      cases hafter : rruleset_after occs (l.next_consumption_date.getD l.start_date)
          (decide (l.start_date = l.next_consumption_date.getD l.start_date)
            && l.next_consumption_date.isNone) with
      | none => rw [hafter] at hok; exact absurd hok (by simp)
      | some nd =>
        rw [hafter] at hok
        cases h1 : date_exceeds nd l.end_date with
        | true => simp [h1] at hok
        | false =>
          cases h2 : date_exceeds nd l.subscription_end_date with
          | true => simp [h1, h2] at hok
          | false =>
            simp [h1, h2] at hok
            subst hok
            constructor
            · intro e he
              rw [he] at h1
              simpa [date_exceeds] using h1
            · intro e he
              rw [he] at h2
              simpa [date_exceeds] using h2
  · intro occs nd hr hafter hor
    simp only [compute_next_consumption_date]
    rw [hr]
    simp only []
    rw [hafter]
    rcases hor with h | h
    · simp [h]
    · cases h1 : date_exceeds nd l.end_date with
      | true => simp [h1]
      | false => simp [h1, h]

/-- C6: with no prior `next_consumption_date` the anchor is `start_date` and
the rule query is inclusive, so an occurrence falling exactly on `start_date`
is returned as the first result; with a prior `next_consumption_date` the
query is strictly after the anchor. -/
theorem c6_first_occurrence_inclusive (l : Line) (occs : List Date)
    (hr : l.consumption_recurrence = some occs)
    (hsorted : occs.Pairwise (· ≤ ·)) :
    (l.next_consumption_date = none → l.start_date ∈ occs →
      (∀ e, l.end_date = some e → l.start_date ≤ e) →
      (∀ e, l.subscription_end_date = some e → l.start_date ≤ e) →
      compute_next_consumption_date l = .ok (some l.start_date))
    ∧ (∀ a d : Date, l.next_consumption_date = some a →
        compute_next_consumption_date l = .ok (some d) → a < d) := by
  constructor
  · intro hn hm he hs
    have h1 : date_exceeds l.start_date l.end_date = false := by
      cases hE : l.end_date with
      | none => rfl
      | some e => simpa [date_exceeds] using he e hE
    have h2 : date_exceeds l.start_date l.subscription_end_date = false := by
      cases hE : l.subscription_end_date with
      | none => rfl
      | some e => simpa [date_exceeds] using hs e hE
    have hfind : rruleset_after occs l.start_date true = some l.start_date := by
      simpa [rruleset_after] using find?_le_of_mem_sorted l.start_date occs hsorted hm
    simp only [compute_next_consumption_date]
    rw [hr, hn]
    simp only [Option.getD_none, Option.isNone_none, Bool.and_true, decide_True]
    rw [hfind]
    simp [h1, h2]
  · exact fun a d ha hd => next_after_prev l a d ha hd

/-- C8: the scheduler is deterministic — two lines agreeing on every field it
reads (`consumption_recurrence`, `next_consumption_date`, `start_date`,
`end_date`, and the subscription's `end_date`) get the same result, whatever
their other fields. -/
theorem c8_deterministic (l1 l2 : Line)
    (h1 : l1.consumption_recurrence = l2.consumption_recurrence)
    (h2 : l1.next_consumption_date = l2.next_consumption_date)
    (h3 : l1.start_date = l2.start_date)
    (h4 : l1.end_date = l2.end_date)
    (h5 : l1.subscription_end_date = l2.subscription_end_date) :
    compute_next_consumption_date l1 = compute_next_consumption_date l2 := by
  simp only [compute_next_consumption_date, h1, h2, h3, h4, h5]

/-- C9: with a non-null `next_consumption_date`, a non-null result is strictly
later than it, and persisting the result back yields a again strictly later
next result — successive scheduling steps strictly increase. -/
theorem c9_strictly_increasing (l : Line) (a d : Date)
    (hprev : l.next_consumption_date = some a)
    (hok : compute_next_consumption_date l = .ok (some d)) :
    a < d ∧ ∀ d2 : Date,
      compute_next_consumption_date { l with next_consumption_date := some d }
        = .ok (some d2) → d < d2 :=
  ⟨next_after_prev l a d hprev hok,
   fun d2 h2 => next_after_prev { l with next_consumption_date := some d } d d2 rfl h2⟩

/-- Witness for C4: a rule with occurrences `0, 30, 60` consumed through `30`
next yields `60`, within the line bound `100` and subscription bound `80`;
tightening the subscription bound to `50` alone exhausts the series. -/
theorem c4_witness :
    ((60 : Date) ≤ 100 ∧ (60 : Date) ≤ 80)
    ∧ compute_next_consumption_date
        ⟨1, none, 0, some 100, some [0, 30, 60], some 30, some 50⟩ = .ok none := by
  constructor
  · have h := (c4_result_within_bounds
      ⟨1, none, 0, some 100, some [0, 30, 60], some 30, some 80⟩).1 60 rfl
    exact ⟨h.1 100 rfl, h.2 80 rfl⟩
  · exact (c4_result_within_bounds
      ⟨1, none, 0, some 100, some [0, 30, 60], some 30, some 50⟩).2
      [0, 30, 60] 60 rfl rfl (Or.inr rfl)

/-- Witness for C6: a line starting at `10` with occurrences `10, 30`, no
prior consumption and bounds `40`/`50` schedules `10` itself first. -/
theorem c6_witness :
    compute_next_consumption_date ⟨1, none, 10, some 40, some [10, 30], none, some 50⟩
      = .ok (some 10) :=
  (c6_first_occurrence_inclusive
      ⟨1, none, 10, some 40, some [10, 30], none, some 50⟩ [10, 30] rfl (by decide)).1
    rfl (by decide)
    (fun e he => by
      have h : some (40 : Date) = some e := he
      injection h with h
      show (10 : Date) ≤ e
      subst h
      decide)
    (fun e he => by
      have h : some (50 : Date) = some e := he
      injection h with h
      show (10 : Date) ≤ e
      subst h
      decide)

/-- Witness for C8: two lines differing only in `id` and `asset_lot` get the
same scheduling result. -/
theorem c8_witness :
    compute_next_consumption_date ⟨1, some 5, 0, some 100, some [0, 30], some 0, none⟩
      = compute_next_consumption_date ⟨2, none, 0, some 100, some [0, 30], some 0, none⟩ :=
  c8_deterministic ⟨1, some 5, 0, some 100, some [0, 30], some 0, none⟩
    ⟨2, none, 0, some 100, some [0, 30], some 0, none⟩ rfl rfl rfl rfl rfl

/-- Witness for C9: occurrences `0, 30, 60, 120` consumed through `0` schedule
`30` and then `60`, strictly increasing. -/
theorem c9_witness : (0 : Date) < 30 ∧ (30 : Date) < 60 := by
  have h := c9_strictly_increasing
    ⟨1, none, 0, none, some [0, 30, 60, 120], some 0, none⟩ 0 30 rfl rfl
  exact ⟨h.1, h.2 60 rfl⟩

/-- C5: pairs of lines with different asset lots, or with a null lot on
either side, are never compared, and a line is never compared with itself:
whenever every pair of distinct-id lines in the table fails the SQL lot
equality, `_validate_dates` passes silently for any batch. -/
theorem c5_no_false_positive (count : Nat) (batch : List Nat) (table : List Line)
    (h : ∀ l ∈ table, ∀ o ∈ table, l.id ≠ o.id →
      lot_eq l.asset_lot o.asset_lot = false) :
    _validate_dates count batch table = .ok () := by
  apply run_chunks_ok
  intro c _
  unfold find_overlapping
  rw [List.findSome?_eq_none_iff]
  intro l hl
  by_cases hcond : (l.asset_lot.isSome && c.contains l.id) = true
  · rw [if_pos hcond]
    have hfind : table.find? (fun o => join_condition l o && overlap_where l o)
        = none := by
      rw [List.find?_eq_none]
      intro o ho
      have hjoin : join_condition l o = false := by
        by_cases hid : l.id = o.id
        · simp [join_condition, hid]
        · simp [join_condition, h l hl o ho hid]
      simp [hjoin]
    rw [hfind]
    rfl
  · rw [if_neg hcond]

/-- Witness for C5: a table with three lines — two on different lots, one
with no lot — validates silently whatever the dates. -/
theorem c5_witness :
    _validate_dates 4 [1, 2, 3]
      [⟨1, some 1, 0, none, none, none, none⟩,
       ⟨2, some 2, 0, none, none, none, none⟩,
       ⟨3, none, 5, some 6, none, none, none⟩] = .ok () :=
  c5_no_false_positive 4 [1, 2, 3]
    [⟨1, some 1, 0, none, none, none, none⟩,
     ⟨2, some 2, 0, none, none, none, none⟩,
     ⟨3, none, 5, some 6, none, none, none⟩] (by decide)

/-- C2 counterexample: lines `[0, 31)` (id 1) and `[31, 59)` (id 2) on the
same lot meet exactly at the boundary; the claim says no conflict is reported
whichever line is validated, yet validating the later line (id 2) raises
`asset_overlapping_dates` because the query clause uses
`other.end_date >= line.start_date`. -/
theorem c2_counterexample :
    _validate_dates 10 [2]
      [⟨1, some 7, 0, some 31, none, none, none⟩,
       ⟨2, some 7, 31, some 59, none, none, none⟩] = .error ⟨2, 1⟩ := rfl

/-- C2 amended: when the batch line is the earlier one — the one whose
`end_date` equals the other's `start_date` — no conflict is reported; when
the later line is validated instead, a conflict naming both lines is reported
exactly when that later line is bounded and non-empty (on the same non-null
lot): an open-ended or zero-length later line also validates silently. -/
theorem c2_boundary_touch (count : Nat) (a b : Line) (m : Date)
    (hend : a.end_date = some m) (hbs : b.start_date = m) (hid : a.id ≠ b.id)
    (hbv : ∀ e, b.end_date = some e → m ≤ e) :
    _validate_dates count [a.id] [a, b] = .ok ()
    ∧ (∀ e, b.end_date = some e → m < e →
        lot_eq b.asset_lot a.asset_lot = true →
        _validate_dates count [b.id] [a, b] = .error ⟨b.id, a.id⟩)
    ∧ (a.start_date ≤ m → b.end_date = none →
        _validate_dates count [b.id] [a, b] = .ok ())
    ∧ (b.end_date = some m →
        _validate_dates count [b.id] [a, b] = .ok ()) := by
  have hov : overlap_where a b = false := by
    unfold overlap_where
    rw [hend]
    cases hbe : b.end_date with
    | none =>
      simp [hbs]
    | some e2 =>
      have he2 : m ≤ e2 := hbv e2 hbe
      simp [hbs, not_lt.mpr he2]
  have hnob : overlap_where b a = false →
      _validate_dates count [b.id] [a, b] = .ok () := by
    intro hba
    unfold _validate_dates
    rw [grouped_slice_singleton]
    have hfind : find_overlapping [a, b] [b.id] = none := by
      unfold find_overlapping
      rw [List.findSome?_eq_none_iff]
      intro l hl
      rcases List.mem_cons.mp hl with hla | hl
      · subst hla
        have hc : ([b.id].contains l.id) = false := by
          simp only [List.contains_cons, List.contains_nil, Bool.or_false]
          exact beq_eq_false_iff_ne.mpr hid
        have hcf : ¬ ((l.asset_lot.isSome && [b.id].contains l.id) = true) := by
          rw [hc, Bool.and_false]
          simp
        rw [if_neg hcf]
      · have hlb : l = b := by simpa using hl
        subst hlb
        by_cases hcond : (l.asset_lot.isSome && [l.id].contains l.id) = true
        · rw [if_pos hcond]
          have hfd : List.find? (fun o => join_condition l o && overlap_where l o)
              [a, l] = none := by
            rw [List.find?_eq_none]
            intro o ho
            rcases List.mem_cons.mp ho with hoa | ho
            · subst hoa
              simp [hba]
            · have hob : o = l := by simpa using ho
              subst hob
              simp [join_condition]
          rw [hfd]
          rfl
        · rw [if_neg hcond]
    simp only [run_chunks, hfind]
  refine ⟨?_, ?_, ?_, ?_⟩
  · unfold _validate_dates
    rw [grouped_slice_singleton]
    have hfind : find_overlapping [a, b] [a.id] = none := by
      unfold find_overlapping
      rw [List.findSome?_eq_none_iff]
      intro l hl
      rcases List.mem_cons.mp hl with hla | hl
      · subst hla
        by_cases hcond : (l.asset_lot.isSome && [l.id].contains l.id) = true
        · rw [if_pos hcond]
          have hfd : List.find? (fun o => join_condition l o && overlap_where l o)
              [l, b] = none := by
            rw [List.find?_eq_none]
            intro o ho
            rcases List.mem_cons.mp ho with hoa | ho
            · subst hoa
              simp [join_condition]
            · have : o = b := by simpa using ho
              subst this
              simp [hov]
          rw [hfd]
          rfl
        · rw [if_neg hcond]
      · have hlb : l = b := by simpa using hl
        subst hlb
        have hc : ([a.id].contains l.id) = false := by
          simp only [List.contains_cons, List.contains_nil, Bool.or_false]
          exact beq_eq_false_iff_ne.mpr (fun hc => hid hc.symm)
        have hcf : ¬ ((l.asset_lot.isSome && [a.id].contains l.id) = true) := by
          rw [hc, Bool.and_false]
          simp
        rw [if_neg hcf]
    simp only [run_chunks, hfind]
  · intro e hbe hlt hlot
    have hsb : b.asset_lot.isSome = true := by
      cases hb : b.asset_lot with
      | none => rw [hb] at hlot; simp [lot_eq] at hlot
      | some k => rfl
    have hjba : join_condition b a = true := by
      simp [join_condition, hlot, bne_iff_ne]
      exact fun hc => hid hc.symm
    have hovba : overlap_where b a = true := by
      unfold overlap_where
      rw [hbe, hend, hbs]
      simp [le_refl, hlt]
    unfold _validate_dates
    rw [grouped_slice_singleton]
    have hfind : find_overlapping [a, b] [b.id] = some (b.id, a.id) := by
      unfold find_overlapping
      rw [List.findSome?_cons]
      have hca : ([b.id].contains a.id) = false := by
        simp only [List.contains_cons, List.contains_nil, Bool.or_false]
        exact beq_eq_false_iff_ne.mpr hid
      rw [if_neg (show ¬ ((a.asset_lot.isSome && [b.id].contains a.id) = true) by
        rw [hca, Bool.and_false]
        simp)]
      rw [List.findSome?_cons]
      rw [if_pos (by simp [hsb])]
      rw [List.find?_cons_of_pos _ (by simp [hjba, hovba])]
      rfl
    simp only [run_chunks, hfind]
  · intro hav hbn
    apply hnob
    unfold overlap_where
    rw [hbn, hend, hbs]
    simp [not_lt.mpr hav]
  · intro hbm
    apply hnob
    unfold overlap_where
    rw [hbm, hend, hbs]
    rcases le_or_lt m a.start_date with hc | hc
    · simp [not_lt.mpr hc]
    · simp [not_le.mpr hc]

/-- Witness for C2 (amended): for touching lines `[0, 31)` and `[31, 59)` on
lot 7, validating the earlier line passes and validating the later one errors
with both identities; with an open-ended later line `[31, None)` instead,
validating the later line also passes. -/
theorem c2_witness :
    _validate_dates 3 [1]
      [⟨1, some 7, 0, some 31, none, none, none⟩,
       ⟨2, some 7, 31, some 59, none, none, none⟩] = .ok ()
    ∧ _validate_dates 3 [2]
      [⟨1, some 7, 0, some 31, none, none, none⟩,
       ⟨2, some 7, 31, some 59, none, none, none⟩] = .error ⟨2, 1⟩
    ∧ _validate_dates 3 [2]
      [⟨1, some 7, 0, some 31, none, none, none⟩,
       ⟨2, some 7, 31, none, none, none, none⟩] = .ok () := by
  have h := c2_boundary_touch 3 ⟨1, some 7, 0, some 31, none, none, none⟩
    ⟨2, some 7, 31, some 59, none, none, none⟩ 31 rfl rfl (by decide)
    (fun e he => by
      have h59 : some (59 : Date) = some e := he
      injection h59 with h59
      subst h59
      decide)
  have hu := c2_boundary_touch 3 ⟨1, some 7, 0, some 31, none, none, none⟩
    ⟨2, some 7, 31, none, none, none, none⟩ 31 rfl rfl (by decide)
    (fun e he => Option.noConfusion he)
  exact ⟨h.1, h.2.1 59 rfl (by decide) rfl, hu.2.2.1 (by decide) rfl⟩

/-- C7: when the query on the first chunk finds an overlapping pair, the
validation fails at once with an error naming exactly that pair — the batch
line and the other line satisfying the join and overlap clauses — and the
rest of the batch is never examined. -/
theorem c7_fail_fast (count : Nat) (x : Nat) (xs : List Nat) (table : List Line)
    (p : Nat × Nat)
    (hf : find_overlapping table ((x :: xs).take (count + 1)) = some p) :
    _validate_dates count (x :: xs) table = .error ⟨p.1, p.2⟩
    ∧ ∃ l ∈ table, ∃ o ∈ table, l.id ≠ o.id
        ∧ lot_eq l.asset_lot o.asset_lot = true
        ∧ overlap_where l o = true
        ∧ l.asset_lot.isSome = true
        ∧ p = (l.id, o.id) := by
  obtain ⟨i, j⟩ := p
  constructor
  · unfold _validate_dates
    rw [grouped_slice_cons]
    simp only [run_chunks, hf]
  · have hf' := hf
    unfold find_overlapping at hf'
    obtain ⟨l, hl, hfl⟩ := List.exists_of_findSome?_eq_some hf'
    by_cases hcond : (l.asset_lot.isSome
        && ((x :: xs).take (count + 1)).contains l.id) = true
    · rw [if_pos hcond] at hfl
      obtain ⟨o, hfo, hpo⟩ := Option.map_eq_some'.mp hfl
      have hq := List.find?_some hfo
      have ho := List.mem_of_find?_eq_some hfo
      rw [Bool.and_eq_true] at hq
      have hjc := hq.1
      unfold join_condition at hjc
      rw [Bool.and_eq_true] at hjc
      rw [Bool.and_eq_true] at hcond
      exact ⟨l, hl, o, ho, bne_iff_ne.mp hjc.1, hjc.2, hq.2, hcond.1, hpo.symm⟩
    · rw [if_neg hcond] at hfl
      exact absurd hfl (by simp)

/-- Witness for C7: lines `[0, 31)` (id 1) and `[15, 59)` (id 2) on lot 9
genuinely overlap; validating id 1 fails immediately naming the pair. -/
theorem c7_witness :
    _validate_dates 10 [1]
      [⟨1, some 9, 0, some 31, none, none, none⟩,
       ⟨2, some 9, 15, some 59, none, none, none⟩] = .error ⟨1, 2⟩
    ∧ ∃ l ∈ [(⟨1, some 9, 0, some 31, none, none, none⟩ : Line),
             ⟨2, some 9, 15, some 59, none, none, none⟩],
      ∃ o ∈ [(⟨1, some 9, 0, some 31, none, none, none⟩ : Line),
             ⟨2, some 9, 15, some 59, none, none, none⟩],
        l.id ≠ o.id
        ∧ lot_eq l.asset_lot o.asset_lot = true
        ∧ overlap_where l o = true
        ∧ l.asset_lot.isSome = true
        ∧ ((1 : Nat), (2 : Nat)) = (l.id, o.id) :=
  c7_fail_fast 10 1 []
    [⟨1, some 9, 0, some 31, none, none, none⟩,
     ⟨2, some 9, 15, some 59, none, none, none⟩] (1, 2) rfl

end SaleSubscriptionAsset
